import Mathlib

/-!
Verification development for the anomaly-detection dashboards plugin.

The detector-list helpers (`getDetectorsForAction`, `getMonitorsForAction`,
`getURLQueryParams`), the where-clause range validators (`validateStart`,
`validateEnd`) and the heatmap chart utilities (`sortHeatmapPlotData`,
`updateHeatmapPlotData`, `getSelectedHeatmapCellPlotData`) are exercised by
the repository's tests and callers but their defining modules are not part
of the source tree at hand; those definitions are modelled from the spec,
as their doc comments state.  `handleHeatmapClick` and `hasAnomalyInHeatmap`
are embedded directly from
`src/public/pages/AnomalyCharts/containers/AnomalyHeatmapChart.tsx`.
-/

/-- Detector lifecycle states, mirroring the `DETECTOR_STATE` enum used by
the detector-list helpers and their tests. -/
inductive DETECTOR_STATE where
  | DISABLED
  | INIT
  | RUNNING
  | FEATURE_REQUIRED
  | INIT_FAILURE
  | UNEXPECTED_FAILURE
  | FAILED
deriving DecidableEq

/-- One row of the detector list, as consumed by the action filter. -/
structure DetectorListItem where
  id : String
  name : String
  curState : DETECTOR_STATE
deriving DecidableEq

namespace DETECTOR_ACTION

def START : String := "start"

def STOP : String := "stop"

def DELETE : String := "delete"

end DETECTOR_ACTION

/-- Modelled from the spec: `getDetectorsForAction`
(src/public/pages/DetectorsList/utils/helpers.ts is not in the source tree;
only its tests are).  START eligibility: state in
{DISABLED, INIT_FAILURE, UNEXPECTED_FAILURE}; STOP eligibility: state in
{INIT, RUNNING, FEATURE_REQUIRED}; DELETE: any state; any other action tag
yields the empty result.  The output preserves input relative ordering
(stable filter). -/
def getDetectorsForAction (detectors : List DetectorListItem)
    (action : String) : List DetectorListItem :=
  if action = DETECTOR_ACTION.START then
    detectors.filter fun d =>
      d.curState = DETECTOR_STATE.DISABLED
        ∨ d.curState = DETECTOR_STATE.INIT_FAILURE
        ∨ d.curState = DETECTOR_STATE.UNEXPECTED_FAILURE
  else if action = DETECTOR_ACTION.STOP then
    detectors.filter fun d =>
      d.curState = DETECTOR_STATE.INIT
        ∨ d.curState = DETECTOR_STATE.RUNNING
        ∨ d.curState = DETECTOR_STATE.FEATURE_REQUIRED
  else if action = DETECTOR_ACTION.DELETE then
    detectors
  else
    []

/-- Alerting monitor record, as used by `getMonitorsForAction`. -/
structure Monitor where
  id : String
  name : String
deriving DecidableEq

/-- Modelled from the spec: `getMonitorsForAction`
(src/public/pages/DetectorsList/utils/helpers.ts is not in the source
tree).  Input: detector list and a mapping from detector id to a possibly
empty monitor sequence; output: a mapping from detector id to its single
associated monitor (the first of the sequence), including only detectors
whose monitor sequence is non-empty.  The mapping is embedded as a
function, the empty object as the everywhere-`none` map, and each
object-set writes one key.  `monitorStep` is one object-set step:
a detector with an empty monitor sequence leaves the mapping unchanged,
otherwise its id is bound to the first monitor of the sequence. -/
def monitorStep (monitors : String → List Monitor)
    (acc : String → Option Monitor) (d : DetectorListItem) :
    String → Option Monitor :=
  match monitors d.id with
  | [] => acc
  | m :: _ => fun k => if k = d.id then some m else acc k

/-- Folds the object-set steps over the detector list, starting from the
empty mapping. -/
def getMonitorsForAction (detectorItems : List DetectorListItem)
    (monitors : String → List Monitor) : String → Option Monitor :=
  detectorItems.foldl (monitorStep monitors) (fun _ => none)

/-- Detector fixture from the `getDetectorsForAction` tests
(six states, FAILED absent). -/
def testDetectors : List DetectorListItem :=
  [ ⟨"detectorId1", "stopped-detector", DETECTOR_STATE.DISABLED⟩,
    ⟨"detectorId2", "init-detector", DETECTOR_STATE.INIT⟩,
    ⟨"detectorId1", "running-detector", DETECTOR_STATE.RUNNING⟩,
    ⟨"detectorId2", "feature-required-detector", DETECTOR_STATE.FEATURE_REQUIRED⟩,
    ⟨"detectorId1", "init-failure-detector", DETECTOR_STATE.INIT_FAILURE⟩,
    ⟨"detectorId2", "unexpected-failure-detector", DETECTOR_STATE.UNEXPECTED_FAILURE⟩ ]

/-- Fixture covering all seven detector states, one item per state. -/
def allStatesDetectors : List DetectorListItem :=
  [ ⟨"d1", "disabled", DETECTOR_STATE.DISABLED⟩,
    ⟨"d2", "init", DETECTOR_STATE.INIT⟩,
    ⟨"d3", "running", DETECTOR_STATE.RUNNING⟩,
    ⟨"d4", "feature-required", DETECTOR_STATE.FEATURE_REQUIRED⟩,
    ⟨"d5", "init-failure", DETECTOR_STATE.INIT_FAILURE⟩,
    ⟨"d6", "unexpected-failure", DETECTOR_STATE.UNEXPECTED_FAILURE⟩,
    ⟨"d7", "failed", DETECTOR_STATE.FAILED⟩ ]

/-- Sort directions for the detector list, mirroring `SORT_DIRECTION`. -/
inductive SORT_DIRECTION where
  | ASC
  | DESC
deriving DecidableEq

/-- Decoded query parameters of the detector list view (`from` is a Lean
keyword, hence `from_`). -/
structure GetDetectorsQueryParams where
  from_ : Nat
  size : Nat
  search : String
  indices : String
  sortField : String
  sortDirection : SORT_DIRECTION
deriving DecidableEq

/-- Splits a character list on a separator character, mirroring the
key-value splitting performed by the host's query-string library. -/
def splitOnChar (sep : Char) : List Char → List (List Char)
  | [] => [[]]
  | c :: rest =>
    match splitOnChar sep rest with
    | [] => [[c]]
    | h :: t => if c = sep then [] :: h :: t else (c :: h) :: t

/-- Modelled from the spec: the query-string library's `parse` turns a
search string into key-value pairs, splitting entries on the ampersand and
each entry at its first equals sign; an entry without an equals sign has no
string value. -/
def parseQueryString (s : String) : List (String × Option String) :=
  (splitOnChar '&' s.data).map fun kv =>
    (String.mk (kv.takeWhile fun c => !(c == '=')),
      match kv.dropWhile (fun c => !(c == '=')) with
      | [] => none
      | _ :: v => some (String.mk v))

/-- Looks a key up among parsed pairs; a missing key and a key without a
string value both yield `none`. -/
def lookupParam (ps : List (String × Option String)) (k : String) :
    Option String :=
  match ps.lookup k with
  | some (some v) => some v
  | _ => none

/-- Decimal digit character of a digit below ten. -/
def digitChar (d : Nat) : Char :=
  match d with
  | 0 => '0'
  | 1 => '1'
  | 2 => '2'
  | 3 => '3'
  | 4 => '4'
  | 5 => '5'
  | 6 => '6'
  | 7 => '7'
  | 8 => '8'
  | _ => '9'

/-- Little-endian decimal digits, driven by explicit fuel so that the
kernel can evaluate it; `natDigits` below instantiates the fuel. -/
def natDigitsAux : Nat → Nat → List Nat
  | 0, _ => []
  | _ + 1, 0 => []
  | fuel + 1, n + 1 => (n + 1) % 10 :: natDigitsAux fuel ((n + 1) / 10)

/-- Little-endian decimal digits of a natural number (empty for zero). -/
def natDigits (n : Nat) : List Nat :=
  natDigitsAux n n

/-- Decimal rendering of a natural number, as the query-string library
writes numeric parameter values. -/
def natToQueryValue (n : Nat) : String :=
  if n = 0 then "0" else String.mk ((natDigits n).reverse.map digitChar)

/-- Modelled from the spec: a well-formed numeric field is a non-empty
string of decimal digits and decodes to its value; anything else is
malformed and yields `none` so the caller fails closed to a default. -/
def queryValueToNat? (s : String) : Option Nat :=
  if !s.data.isEmpty && s.data.all (fun c => c.isDigit) then
    some (Nat.ofDigits 10 ((s.data.map fun c => c.toNat - 48).reverse))
  else
    none

/-- Character-wise lowercase of a string (the core `String.toLower` is
defined by well-founded recursion, which the kernel cannot evaluate). -/
def toLowercase (s : String) : String :=
  String.mk (s.data.map Char.toLower)

/-- Modelled from the spec: the sortDirection string is case-normalized
against the fixed enum; unrecognized values fail closed to ASC. -/
def parseSortDirection (v : Option String) : SORT_DIRECTION :=
  match v with
  | none => SORT_DIRECTION.ASC
  | some s =>
    if toLowercase s = "desc" then SORT_DIRECTION.DESC else SORT_DIRECTION.ASC

/-- Default query parameters of the detector list view. -/
def DEFAULT_QUERY_PARAMS : GetDetectorsQueryParams :=
  { from_ := 0
    size := 20
    search := ""
    indices := ""
    sortField := "name"
    sortDirection := SORT_DIRECTION.ASC }

/-- Modelled from the spec: `getURLQueryParams`
(src/public/pages/DetectorsList/utils/helpers.ts is not in the source
tree).  Decodes field by field; missing or malformed fields fail closed to
the defaults from=0, size=20, search and indices empty, sortField "name",
sortDirection ASC. -/
def getURLQueryParams (locationSearch : String) : GetDetectorsQueryParams :=
  let ps := parseQueryString locationSearch
  { from_ :=
      match lookupParam ps "from" with
      | none => DEFAULT_QUERY_PARAMS.from_
      | some v => (queryValueToNat? v).getD DEFAULT_QUERY_PARAMS.from_
    size :=
      match lookupParam ps "size" with
      | none => DEFAULT_QUERY_PARAMS.size
      | some v => (queryValueToNat? v).getD DEFAULT_QUERY_PARAMS.size
    search := (lookupParam ps "search").getD DEFAULT_QUERY_PARAMS.search
    indices := (lookupParam ps "indices").getD DEFAULT_QUERY_PARAMS.indices
    sortField := (lookupParam ps "sortField").getD DEFAULT_QUERY_PARAMS.sortField
    sortDirection := parseSortDirection (lookupParam ps "sortDirection") }

/-- Wire form of a sort direction. -/
def sortDirectionToString : SORT_DIRECTION → String
  | SORT_DIRECTION.ASC => "asc"
  | SORT_DIRECTION.DESC => "desc"

/-- Modelled from the spec: the encoder writes the parsed object back to a
search string, one key=value entry per field, joined by ampersands, with
numeric fields in decimal. -/
def encodeQueryParams (p : GetDetectorsQueryParams) : String :=
  String.mk ("from=".data ++ (natToQueryValue p.from_).data
    ++ '&' :: "size=".data ++ (natToQueryValue p.size).data
    ++ '&' :: "search=".data ++ p.search.data
    ++ '&' :: "indices=".data ++ p.indices.data
    ++ '&' :: "sortField=".data ++ p.sortField.data
    ++ '&' :: "sortDirection=".data ++ (sortDirectionToString p.sortDirection).data)

/-- Form field value as the range validators see it: absent (undefined),
null, the empty string, or a number. -/
inductive FieldValue where
  | undefinedValue
  | nullValue
  | emptyString
  | numberValue (v : Int)
deriving DecidableEq

/-- True when the value is an actual number rather than undefined, null or
the empty string. -/
def FieldValue.isPresent : FieldValue → Bool
  | FieldValue.numberValue _ => true
  | _ => false

/-- Modelled from the spec: `validateStart` of the where-clause helpers
(only its tests are in the source tree).  The start value is required and
must be strictly less than the end value; missing, null or empty values
fail with "Required"; errors are returned as strings, never thrown. -/
def validateStart (startValue endValue : FieldValue) : Option String :=
  if !startValue.isPresent then some "Required"
  else
    match startValue, endValue with
    | FieldValue.numberValue s, FieldValue.numberValue e =>
      if e ≤ s then some "Start should be less than end" else none
    | _, _ => none

/-- Modelled from the spec: `validateEnd` of the where-clause helpers.
The end value is required and must be strictly greater than the start
value; missing, null or empty values fail with "Required". -/
def validateEnd (endValue startValue : FieldValue) : Option String :=
  if !endValue.isPresent then some "Required"
  else
    match endValue, startValue with
    | FieldValue.numberValue e, FieldValue.numberValue s =>
      if e ≤ s then some "End should be greater than start" else none
    | _, _ => none

/-- Sort types of the heatmap view, mirroring `AnomalyHeatmapSortType`. -/
inductive AnomalyHeatmapSortType where
  | SEVERITY
  | OCCURRENCE
deriving DecidableEq

/-- Plot-ready heatmap grid: per-entity Y labels, per-bucket X labels, a z
row (severity, null for an empty cell) and a text row (occurrence count)
per entity, an opacity channel, and the cell time interval.  Severities and
opacities are embedded as rationals. -/
structure PlotData where
  x : List String
  y : List String
  z : List (List (Option ℚ))
  text : List (List Nat)
  opacity : ℚ
  cellTimeInterval : Nat
deriving DecidableEq

/-- Rows of a grid: each Y label zipped with its z row and its text row. -/
def heatmapRows (g : PlotData) : List (String × List (Option ℚ) × List Nat) :=
  g.y.zip (g.z.zip g.text)

/-- Cumulative severity of a row (null cells count as zero). -/
def rowSeverity (row : String × List (Option ℚ) × List Nat) : ℚ :=
  (row.2.1.map fun v => v.getD 0).sum

/-- Cumulative occurrence count of a row. -/
def rowOccurrence (row : String × List (Option ℚ) × List Nat) : ℚ :=
  (row.2.2.sum : ℚ)

/-- Ranking key used by the heatmap sort. -/
def rowRank (sortType : AnomalyHeatmapSortType)
    (row : String × List (Option ℚ) × List Nat) : ℚ :=
  match sortType with
  | AnomalyHeatmapSortType.SEVERITY => rowSeverity row
  | AnomalyHeatmapSortType.OCCURRENCE => rowOccurrence row

/-- Descending-rank ordering on rows for a given sort type. -/
abbrev heatmapRankRel (sortType : AnomalyHeatmapSortType)
    (a b : String × List (Option ℚ) × List Nat) : Prop :=
  rowRank sortType b ≤ rowRank sortType a

/-- Modelled from the spec: `sortHeatmapPlotData(grid, sortType, topNum)`
(anomalyChartUtils is not in the source tree) re-ranks the Y-axis entity
ordering by cumulative severity or cumulative occurrence count, descending
(stable, so ties keep their relative order), retains the top-N slice, and
leaves grid cell values unchanged. -/
def sortHeatmapPlotData (g : PlotData) (sortType : AnomalyHeatmapSortType)
    (topNum : Nat) : PlotData :=
  let kept :=
    ((heatmapRows g).insertionSort (heatmapRankRel sortType)).take topNum
  { g with
    y := kept.map fun r => r.1
    z := kept.map fun r => r.2.1
    text := kept.map fun r => r.2.2 }

/-- Modelled from the spec: `updateHeatmapPlotData` updates the opacity
channel of a plot grid, leaving the data unchanged. -/
def updateHeatmapPlotData (g : PlotData) (opacity : ℚ) : PlotData :=
  { g with opacity := opacity }

/-- Modelled from the spec: `getSelectedHeatmapCellPlotData(grid, x, y)`
returns an overlay grid containing only the single selected cell at full
opacity; every other z entry is null. -/
def getSelectedHeatmapCellPlotData (g : PlotData)
    (selectedX selectedY : Nat) : List PlotData :=
  [{ g with
      z := (List.range g.z.length).map fun i =>
        (List.range (g.z.getD i []).length).map fun j =>
          if i = selectedY ∧ j = selectedX then
            some (((g.z.getD i []).getD j none).getD 0)
          else none
      opacity := 1 }]

/-- Plotly click event as read by the handler: `points[0].pointIndex`
gives the row (Y) and column (X) indices, `points[0].text` the occurrence
count of the clicked cell, `points[0].customdata` the entity string. -/
structure ClickEvent where
  pointYIndex : Nat
  pointXIndex : Nat
  text : Nat
  customdata : String
deriving DecidableEq

/-- Payload handed to the selection callback for a selected cell; the
date-range arithmetic of the source (moment parsing of the x label) is
kept abstract as the clicked indices plus the entity string. -/
structure SelectedCellInfo where
  entityListAsString : String
  xIndex : Nat
  yIndex : Nat
deriving DecidableEq

/-- Placeholder grid used to embed JavaScript's out-of-bounds indexing. -/
def emptyPlotData : PlotData :=
  { x := [], y := [], z := [], text := [], opacity := 1, cellTimeInterval := 0 }

/-- Embedded from `handleHeatmapClick` in
src/public/pages/AnomalyCharts/containers/AnomalyHeatmapChart.tsx
(lines 260-312): a click with zero anomaly count, or on the cell that the
overlay grid (heatmapData[1], when present) marks as selected, resets the
grid to full opacity and reports no selection; any other click dims the
grid, overlays the single clicked cell, and reports the selection.  The
pair returned is the new heatmap data and the callback argument. -/
def handleHeatmapClick (heatmapData : List PlotData) (event : ClickEvent) :
    List PlotData × Option SelectedCellInfo :=
  let anomalyCount := event.text
  if anomalyCount = 0
      ∨ (1 < heatmapData.length
          ∧ ((heatmapData.getD 1 emptyPlotData).z.getD event.pointYIndex []).getD
              event.pointXIndex none ≠ none) then
    ([updateHeatmapPlotData (heatmapData.getD 0 emptyPlotData) 1], none)
  else
    let transparentHeatmapData :=
      updateHeatmapPlotData (heatmapData.getD 0 emptyPlotData) (3 / 10)
    let selectedHeatmapData :=
      getSelectedHeatmapCellPlotData (heatmapData.getD 0 emptyPlotData)
        event.pointXIndex event.pointYIndex
    (transparentHeatmapData :: selectedHeatmapData,
      some ⟨event.customdata, event.pointXIndex, event.pointYIndex⟩)

/-- Embedded from JavaScript's unseeded `Array.prototype.reduce` with a
sum callback: reducing an empty array without an initial value throws,
which the embedding returns as `none`. -/
def reduceUnseeded (l : List Nat) : Option Nat :=
  match l with
  | [] => none
  | a :: rest => some (rest.foldl (fun x y => x + y) a)

/-- Embedded from `hasAnomalyInHeatmap` in
src/public/pages/AnomalyCharts/containers/AnomalyHeatmapChart.tsx
(lines 216-227), taking the grid's text rows (`heatmapData[0].text`) as
input: scans the per-entity occurrence rows, returning true on the first
row whose unseeded-reduce sum is positive; `none` embeds the exception
raised when the unseeded reduce meets an empty row. -/
def hasAnomalyInHeatmap : List (List Nat) → Option Bool
  | [] => some false
  | row :: rest =>
    match reduceUnseeded row with
    | none => none
    | some s => if 0 < s then some true else hasAnomalyInHeatmap rest

/-- Heatmap state holding a dimmed full grid plus the overlay of one
selected cell, as the click handler produces it. -/
def heatmapStateWithSelection (g : PlotData) (selectedX selectedY : Nat) :
    List PlotData :=
  updateHeatmapPlotData g (3 / 10)
    :: getSelectedHeatmapCellPlotData g selectedX selectedY

/-- Concrete one-cell grid used to witness the click handler theorem. -/
def witnessPlotGrid : PlotData :=
  { x := ["t0"], y := ["e0"], z := [[some 1]], text := [[3]],
    opacity := 1, cellTimeInterval := 60000 }

/-- Concrete click event used to witness the click handler theorem. -/
def witnessClickEvent : ClickEvent :=
  { pointYIndex := 0, pointXIndex := 0, text := 3, customdata := "e0" }

/-- Concrete one-cell grid (null severity cell) used to witness the
heatmap sort theorem. -/
def witnessSortGrid : PlotData :=
  { x := ["t0"], y := ["e0"], z := [[none]], text := [[3]],
    opacity := 1, cellTimeInterval := 60000 }

/-- Fixture from the `getMonitorsForAction` tests: two detectors (their
states are irrelevant to monitor resolution). -/
def monitorTestDetectors : List DetectorListItem :=
  [ ⟨"detectorId1", "test-detector-1", DETECTOR_STATE.DISABLED⟩,
    ⟨"detectorId2", "test-detector-2", DETECTOR_STATE.DISABLED⟩ ]

/-- Fixture from the `getMonitorsForAction` tests: detectorId1 has one
related monitor, every other detector has none. -/
def testMonitors : String → List Monitor := fun k =>
  if k = "detectorId1" then [⟨"monitorId1", "test-monitor-1"⟩] else []

/-- C1: for every detector list, filtering for the START action keeps
exactly the items whose state is DISABLED, INIT_FAILURE or
UNEXPECTED_FAILURE, in their original relative order (the result is a
sublist of the input); on the six-state test fixture the result is the
stopped, init-failure and unexpected-failure detectors in that order. -/
theorem start_action_filters_exactly (detectors : List DetectorListItem) :
    List.Sublist (getDetectorsForAction detectors DETECTOR_ACTION.START) detectors
      ∧ (∀ d : DetectorListItem,
          d ∈ getDetectorsForAction detectors DETECTOR_ACTION.START ↔
            d ∈ detectors
              ∧ (d.curState = DETECTOR_STATE.DISABLED
                ∨ d.curState = DETECTOR_STATE.INIT_FAILURE
                ∨ d.curState = DETECTOR_STATE.UNEXPECTED_FAILURE))
      ∧ getDetectorsForAction testDetectors DETECTOR_ACTION.START =
          [ ⟨"detectorId1", "stopped-detector", DETECTOR_STATE.DISABLED⟩,
            ⟨"detectorId1", "init-failure-detector", DETECTOR_STATE.INIT_FAILURE⟩,
            ⟨"detectorId2", "unexpected-failure-detector",
              DETECTOR_STATE.UNEXPECTED_FAILURE⟩ ] := by
  refine ⟨?_, ?_, by decide⟩
  · rw [getDetectorsForAction, if_pos rfl]
    exact List.filter_sublist _
  · intro d
    rw [getDetectorsForAction, if_pos rfl]
    simp [List.mem_filter]

/-- C2: for every detector list (all seven states included), the DELETE
action keeps every item in original order; in particular this holds on a
fixture enumerating all seven states. -/
theorem delete_action_keeps_all (detectors : List DetectorListItem) :
    getDetectorsForAction detectors DETECTOR_ACTION.DELETE = detectors
      ∧ getDetectorsForAction allStatesDetectors DETECTOR_ACTION.DELETE
          = allStatesDetectors := by
  constructor
  · rw [getDetectorsForAction, if_neg (by decide), if_neg (by decide), if_pos rfl]
  · rw [getDetectorsForAction, if_neg (by decide), if_neg (by decide), if_pos rfl]

/-- C6: for every detector list and every action tag other than START,
STOP and DELETE, the action filter returns the empty result. -/
theorem unrecognized_action_empty (detectors : List DetectorListItem)
    (action : String) (h1 : action ≠ DETECTOR_ACTION.START)
    (h2 : action ≠ DETECTOR_ACTION.STOP)
    (h3 : action ≠ DETECTOR_ACTION.DELETE) :
    getDetectorsForAction detectors action = [] := by
  rw [getDetectorsForAction, if_neg h1, if_neg h2, if_neg h3]

/-- C6 witness: the unrecognized tag of the test suite empties the
six-state fixture. -/
theorem unrecognized_action_empty_witness :
    getDetectorsForAction testDetectors "something-invalid" = [] :=
  unrecognized_action_empty testDetectors "something-invalid"
    (by decide) (by decide) (by decide)

/-- Folding the object-set steps over a detector list touches no key that
none of its detectors resolves a monitor for. -/
theorem monitorFold_neg (monitors : String → List Monitor) :
    ∀ (l : List DetectorListItem) (acc : String → Option Monitor) (id : String),
      (¬ ∃ d ∈ l, d.id = id ∧ monitors d.id ≠ []) →
      l.foldl (monitorStep monitors) acc id = acc id := by
  intro l
  induction l with
  | nil => intro acc id _; rfl
  | cons d t ih =>
    intro acc id h
    rw [List.foldl_cons]
    have ht : ¬ ∃ d' ∈ t, d'.id = id ∧ monitors d'.id ≠ [] := by
      rintro ⟨d', hd', hp⟩
      exact h ⟨d', List.mem_cons_of_mem _ hd', hp⟩
    rw [ih _ _ ht]
    have hd : ¬ (d.id = id ∧ monitors d.id ≠ []) := by
      intro hp
      exact h ⟨d, List.mem_cons_self d t, hp⟩
    cases hm : monitors d.id with
    | nil => simp [monitorStep, hm]
    | cons m ms =>
      have hne : id ≠ d.id := by
        intro he
        exact hd ⟨he.symm, by rw [hm]; simp⟩
      simp [monitorStep, hm, hne]

/-- Folding the object-set steps over a detector list binds a key that
some detector resolves a monitor for to the first monitor of its
sequence. -/
theorem monitorFold_pos (monitors : String → List Monitor) :
    ∀ (l : List DetectorListItem) (acc : String → Option Monitor) (id : String),
      (∃ d ∈ l, d.id = id ∧ monitors d.id ≠ []) →
      l.foldl (monitorStep monitors) acc id = (monitors id).head? := by
  intro l
  induction l with
  | nil =>
    rintro acc id ⟨d, hd, _⟩
    cases hd
  | cons d t ih =>
    rintro acc id h
    rw [List.foldl_cons]
    by_cases ht : ∃ d' ∈ t, d'.id = id ∧ monitors d'.id ≠ []
    · exact ih _ _ ht
    · obtain ⟨d', hd', hid, hne⟩ := h
      rcases List.mem_cons.mp hd' with rfl | hmem
      · rw [monitorFold_neg monitors t _ _ ht, ← hid]
        cases hm : monitors d'.id with
        | nil => exact absurd hm hne
        | cons m ms => simp [monitorStep, hm]
      · exact absurd ⟨d', hmem, hid, hne⟩ ht

/-- C7: the monitor resolver's keys are exactly the detectors whose
monitor sequence is non-empty (so a detector with an empty sequence never
appears), and every bound key maps to the single (first) monitor of its
sequence. -/
theorem getMonitorsForAction_spec (detectorItems : List DetectorListItem)
    (monitors : String → List Monitor) :
    (∀ id : String,
        (getMonitorsForAction detectorItems monitors id).isSome = true ↔
          ∃ d ∈ detectorItems, d.id = id ∧ monitors d.id ≠ [])
      ∧ (∀ (id : String) (m : Monitor),
          getMonitorsForAction detectorItems monitors id = some m →
            (monitors id).head? = some m) := by
  constructor
  · intro id
    constructor
    · intro hs
      by_contra hne
      rw [getMonitorsForAction, monitorFold_neg monitors _ _ _ hne] at hs
      simp at hs
    · intro he
      rw [getMonitorsForAction, monitorFold_pos monitors _ _ _ he]
      obtain ⟨d, _, hid, hne⟩ := he
      rw [← hid]
      cases hm : monitors d.id with
      | nil => exact absurd hm hne
      | cons m ms => rfl
  · intro id m hm
    by_cases he : ∃ d ∈ detectorItems, d.id = id ∧ monitors d.id ≠ []
    · rw [getMonitorsForAction, monitorFold_pos monitors _ _ _ he] at hm
      exact hm
    · rw [getMonitorsForAction, monitorFold_neg monitors _ _ _ he] at hm
      cases hm

/-- C7 witness: on the test fixture, detectorId1 (one related monitor) is
a key and detectorId2 (empty monitor sequence) is not. -/
theorem getMonitorsForAction_spec_witness :
    (getMonitorsForAction monitorTestDetectors testMonitors "detectorId1").isSome = true
      ∧ ¬ (getMonitorsForAction monitorTestDetectors testMonitors "detectorId2").isSome = true := by
  constructor
  · exact ((getMonitorsForAction_spec monitorTestDetectors testMonitors).1
      "detectorId1").mpr ⟨⟨"detectorId1", "test-detector-1", DETECTOR_STATE.DISABLED⟩,
        by decide, rfl, by decide⟩
  · intro hs
    have := ((getMonitorsForAction_spec monitorTestDetectors testMonitors).1
      "detectorId2").mp hs
    revert this
    decide

/-- C8: a missing, null or empty start value makes `validateStart` return
"Required" (symmetrically for `validateEnd`); with both values numeric,
`validateStart` errors exactly when the start is not strictly below the
end, `validateEnd` errors exactly when the end is not strictly above the
start, and a strictly ordered pair passes both; results are returned
strings, never exceptions. -/
theorem range_validation_rules (sv ev : FieldValue) :
    (sv.isPresent = false → validateStart sv ev = some "Required")
      ∧ (ev.isPresent = false → validateEnd ev sv = some "Required")
      ∧ (∀ s e : Int,
          ((validateStart (FieldValue.numberValue s)
                (FieldValue.numberValue e)).isSome = true ↔ ¬ s < e)
            ∧ ((validateEnd (FieldValue.numberValue e)
                (FieldValue.numberValue s)).isSome = true ↔ ¬ s < e)
            ∧ (s < e →
                validateStart (FieldValue.numberValue s) (FieldValue.numberValue e) = none
                  ∧ validateEnd (FieldValue.numberValue e) (FieldValue.numberValue s) = none)) := by
  refine ⟨?_, ?_, ?_⟩
  · intro h
    cases sv with
    | numberValue v => cases h
    | undefinedValue => rfl
    | nullValue => rfl
    | emptyString => rfl
  · intro h
    cases ev with
    | numberValue v => cases h
    | undefinedValue => rfl
    | nullValue => rfl
    | emptyString => rfl
  · intro s e
    have h1 : validateStart (FieldValue.numberValue s) (FieldValue.numberValue e)
        = if e ≤ s then some "Start should be less than end" else none := rfl
    have h2 : validateEnd (FieldValue.numberValue e) (FieldValue.numberValue s)
        = if e ≤ s then some "End should be greater than start" else none := rfl
    rw [h1, h2]
    by_cases h : e ≤ s
    · rw [if_pos h, if_pos h]
      refine ⟨by simp; omega, by simp; omega, fun hlt => absurd hlt (by omega)⟩
    · rw [if_neg h, if_neg h]
      refine ⟨by simp; omega, by simp; omega, fun _ => ⟨rfl, rfl⟩⟩

/-- C8 witness: the fixture values of the tests — empty start fails with
"Required", an equal pair fails both bounds, a strict pair passes. -/
theorem range_validation_rules_witness :
    validateStart FieldValue.emptyString (FieldValue.numberValue 20) = some "Required"
      ∧ (validateStart (FieldValue.numberValue 20) (FieldValue.numberValue 20)).isSome = true
      ∧ validateStart (FieldValue.numberValue 20) (FieldValue.numberValue 30) = none := by
  refine ⟨?_, ?_, ?_⟩
  · exact (range_validation_rules FieldValue.emptyString (FieldValue.numberValue 20)).1 rfl
  · exact (((range_validation_rules FieldValue.emptyString FieldValue.emptyString).2.2
      20 20).1).mpr (by omega)
  · exact (((range_validation_rules FieldValue.emptyString FieldValue.emptyString).2.2
      20 30).2.2 (by omega)).1

/-- Folding addition from a starting value sums the list. -/
theorem foldl_add_eq_sum (t : List Nat) (a : Nat) :
    t.foldl (fun x y => x + y) a = a + t.sum := by
  induction t generalizing a with
  | nil => simp
  | cons b t ih => simp [ih, List.sum_cons, Nat.add_assoc]

/-- A list of naturals has a positive sum exactly when one of its
elements is positive. -/
theorem sum_pos_iff_mem_pos (l : List Nat) :
    0 < l.sum ↔ ∃ x ∈ l, 0 < x := by
  induction l with
  | nil => simp
  | cons a t ih =>
    constructor
    · intro h
      by_cases ha : 0 < a
      · exact ⟨a, List.mem_cons_self a t, ha⟩
      · have hs : 0 < t.sum := by
          rw [List.sum_cons] at h
          omega
        obtain ⟨x, hx, hpx⟩ := ih.mp hs
        exact ⟨x, List.mem_cons_of_mem _ hx, hpx⟩
    · rintro ⟨x, hx, hpx⟩
      rcases List.mem_cons.mp hx with rfl | hx
      · rw [List.sum_cons]
        omega
      · have := ih.mpr ⟨x, hx, hpx⟩
        rw [List.sum_cons]
        omega

/-- C10 counterexample: a grid that does contain an empty text row on
which the scan nevertheless completes (returning some true) instead of
throwing, because the positive first row returns before the empty row is
reduced; hence the function is not total only on all-rows-non-empty
grids. -/
theorem hasAnomalyInHeatmap_empty_row_no_throw :
    ([] : List Nat) ∈ [[1], ([] : List Nat)]
      ∧ hasAnomalyInHeatmap [[1], []] = some true := by
  exact ⟨by simp, rfl⟩

/-- C10 (amended): on every grid all of whose text rows are non-empty the
scan cannot hit the unseeded-reduce error branch and returns true exactly
when some cell's occurrence count is positive; the precondition cannot be
dropped altogether, since a grid whose first text row is empty does make
the unseeded reduce throw. -/
theorem hasAnomalyInHeatmap_total_on_nonempty_rows :
    (∀ text : List (List Nat), (∀ row ∈ text, row ≠ []) →
        hasAnomalyInHeatmap text
          = some (text.any fun row => row.any fun c => decide (0 < c)))
      ∧ hasAnomalyInHeatmap [[]] = none := by
  refine ⟨?_, rfl⟩
  intro text h
  induction text with
  | nil => rfl
  | cons row rest ih =>
    have hrow : row ≠ [] := h row (List.mem_cons_self _ _)
    have hrest : ∀ r ∈ rest, r ≠ [] := fun r hr => h r (List.mem_cons_of_mem _ hr)
    cases row with
    | nil => exact absurd rfl hrow
    | cons a t =>
      have hred : reduceUnseeded (a :: t) = some (a + t.sum) := by
        rw [reduceUnseeded, foldl_add_eq_sum]
      simp only [hasAnomalyInHeatmap, hred]
      by_cases hpos : 0 < a + t.sum
      · rw [if_pos hpos]
        have hany : ((a :: t).any fun c => decide (0 < c)) = true := by
          rw [List.any_eq_true]
          obtain ⟨x, hx, hpx⟩ := (sum_pos_iff_mem_pos (a :: t)).mp
            (by rw [List.sum_cons]; omega)
          exact ⟨x, hx, by simpa⟩
        simp [List.any_cons, hany]
      · rw [if_neg hpos, ih hrest]
        have hany : ((a :: t).any fun c => decide (0 < c)) = false := by
          rw [List.any_eq_false]
          intro x hx
          simp only [decide_eq_true_eq]
          intro hpx
          have h1 : 0 < (a :: t).sum :=
            (sum_pos_iff_mem_pos (a :: t)).mpr ⟨x, hx, hpx⟩
          rw [List.sum_cons] at h1
          exact hpos h1
        simp [List.any_cons, hany]

/-- C10 witness: a concrete all-rows-non-empty grid on which the scan
reports an anomaly. -/
theorem hasAnomalyInHeatmap_total_on_nonempty_rows_witness :
    hasAnomalyInHeatmap [[0, 0], [0, 2]] = some true := by
  have h := hasAnomalyInHeatmap_total_on_nonempty_rows.1 [[0, 0], [0, 2]]
    (by decide)
  rw [h]
  rfl

/-- C3: the query-param parser decodes field by field — a missing or
malformed numeric field falls back to its default (from=0, size=20), a
well-formed numeric field decodes to its value, missing string fields fall
back to their defaults (search and indices empty, sortField "name"),
present string fields decode verbatim, and sortDirection is
case-normalized with every unrecognized value (and absence) failing closed
to ASC; the empty search string yields all defaults and the end-to-end
query string of the tests decodes as the tests assert. -/
theorem getURLQueryParams_decodes (s : String) :
    (lookupParam (parseQueryString s) "from" = none →
        (getURLQueryParams s).from_ = 0)
      ∧ (∀ v, lookupParam (parseQueryString s) "from" = some v →
          queryValueToNat? v = none → (getURLQueryParams s).from_ = 0)
      ∧ (∀ v n, lookupParam (parseQueryString s) "from" = some v →
          queryValueToNat? v = some n → (getURLQueryParams s).from_ = n)
      ∧ (lookupParam (parseQueryString s) "size" = none →
          (getURLQueryParams s).size = 20)
      ∧ (∀ v, lookupParam (parseQueryString s) "size" = some v →
          queryValueToNat? v = none → (getURLQueryParams s).size = 20)
      ∧ (∀ v n, lookupParam (parseQueryString s) "size" = some v →
          queryValueToNat? v = some n → (getURLQueryParams s).size = n)
      ∧ (lookupParam (parseQueryString s) "search" = none →
          (getURLQueryParams s).search = "")
      ∧ (∀ v, lookupParam (parseQueryString s) "search" = some v →
          (getURLQueryParams s).search = v)
      ∧ (lookupParam (parseQueryString s) "indices" = none →
          (getURLQueryParams s).indices = "")
      ∧ (∀ v, lookupParam (parseQueryString s) "indices" = some v →
          (getURLQueryParams s).indices = v)
      ∧ (lookupParam (parseQueryString s) "sortField" = none →
          (getURLQueryParams s).sortField = "name")
      ∧ (∀ v, lookupParam (parseQueryString s) "sortField" = some v →
          (getURLQueryParams s).sortField = v)
      ∧ (lookupParam (parseQueryString s) "sortDirection" = none →
          (getURLQueryParams s).sortDirection = SORT_DIRECTION.ASC)
      ∧ (∀ v, lookupParam (parseQueryString s) "sortDirection" = some v →
          toLowercase v = "desc" →
          (getURLQueryParams s).sortDirection = SORT_DIRECTION.DESC)
      ∧ (∀ v, lookupParam (parseQueryString s) "sortDirection" = some v →
          toLowercase v ≠ "desc" →
          (getURLQueryParams s).sortDirection = SORT_DIRECTION.ASC)
      ∧ getURLQueryParams "" = DEFAULT_QUERY_PARAMS
      ∧ getURLQueryParams
            "from=100&size=5&indices=someIndex&search=test&sortField=name&sortDirection=desc"
          = { from_ := 100, size := 5, search := "test", indices := "someIndex",
              sortField := "name", sortDirection := SORT_DIRECTION.DESC } := by
  refine ⟨?_, ?_, ?_, ?_, ?_, ?_, ?_, ?_, ?_, ?_, ?_, ?_, ?_, ?_, ?_,
    by decide, by decide⟩
  · intro h
    simp [getURLQueryParams, h, DEFAULT_QUERY_PARAMS]
  · intro v hv hn
    simp [getURLQueryParams, hv, hn, DEFAULT_QUERY_PARAMS]
  · intro v n hv hn
    simp [getURLQueryParams, hv, hn]
  · intro h
    simp [getURLQueryParams, h, DEFAULT_QUERY_PARAMS]
  · intro v hv hn
    simp [getURLQueryParams, hv, hn, DEFAULT_QUERY_PARAMS]
  · intro v n hv hn
    simp [getURLQueryParams, hv, hn]
  · intro h
    simp [getURLQueryParams, h, DEFAULT_QUERY_PARAMS]
  · intro v hv
    simp [getURLQueryParams, hv]
  · intro h
    simp [getURLQueryParams, h, DEFAULT_QUERY_PARAMS]
  · intro v hv
    simp [getURLQueryParams, hv]
  · intro h
    simp [getURLQueryParams, h, DEFAULT_QUERY_PARAMS]
  · intro v hv
    simp [getURLQueryParams, hv]
  · intro h
    simp [getURLQueryParams, h, parseSortDirection, DEFAULT_QUERY_PARAMS]
  · intro v hv hlow
    simp [getURLQueryParams, hv, parseSortDirection, hlow]
  · intro v hv hlow
    simp [getURLQueryParams, hv, parseSortDirection, hlow]

/-- C3 witness: a malformed numeric field falls back to 0 and a
mixed-case sortDirection is normalized to DESC. -/
theorem getURLQueryParams_decodes_witness :
    (getURLQueryParams "from=abc").from_ = 0
      ∧ (getURLQueryParams "sortDirection=DeSc").sortDirection
          = SORT_DIRECTION.DESC := by
  constructor
  · obtain ⟨-, h, -⟩ := getURLQueryParams_decodes "from=abc"
    exact h "abc" (by decide) (by decide)
  · obtain ⟨-, -, -, -, -, -, -, -, -, -, -, -, -, h, -⟩ :=
      getURLQueryParams_decodes "sortDirection=DeSc"
    exact h "DeSc" (by decide) (by decide)

/-- splitOnChar always yields at least one piece. -/
theorem splitOnChar_ne_nil (sep : Char) :
    ∀ l : List Char, splitOnChar sep l ≠ [] := by
  intro l
  cases l with
  | nil => simp [splitOnChar]
  | cons c rest =>
    cases h : splitOnChar sep rest with
    | nil => simp [splitOnChar, h]
    | cons hd tl =>
      simp only [splitOnChar, h]
      split <;> simp

/-- Unfolding equation of splitOnChar on a cons, with the recursive call
named. -/
theorem splitOnChar_cons_eq (sep c : Char) (rest : List Char)
    (hd : List Char) (tl : List (List Char))
    (h : splitOnChar sep rest = hd :: tl) :
    splitOnChar sep (c :: rest)
      = if c = sep then [] :: hd :: tl else (c :: hd) :: tl := by
  simp only [splitOnChar, h]

/-- No piece produced by splitOnChar contains the separator. -/
theorem mem_splitOnChar_not_mem (sep : Char) :
    ∀ (l piece : List Char), piece ∈ splitOnChar sep l → sep ∉ piece := by
  intro l
  induction l with
  | nil =>
    intro piece hp
    simp [splitOnChar] at hp
    simp [hp]
  | cons c rest ih =>
    intro piece hp
    cases h : splitOnChar sep rest with
    | nil => exact absurd h (splitOnChar_ne_nil sep rest)
    | cons hd tl =>
      rw [splitOnChar_cons_eq sep c rest hd tl h] at hp
      by_cases hc : c = sep
      · rw [if_pos hc] at hp
        rcases List.mem_cons.mp hp with rfl | hp2
        · simp
        · exact ih piece (h ▸ hp2)
      · rw [if_neg hc] at hp
        rcases List.mem_cons.mp hp with rfl | hp2
        · intro hmem
          rcases List.mem_cons.mp hmem with rfl | hmem2
          · exact hc rfl
          · exact ih hd (h ▸ List.mem_cons_self hd tl) hmem2
        · exact ih piece (h ▸ List.mem_cons_of_mem hd hp2)

/-- splitOnChar of a separator-free list is that single piece. -/
theorem splitOnChar_no_sep (sep : Char) :
    ∀ a : List Char, sep ∉ a → splitOnChar sep a = [a] := by
  intro a
  induction a with
  | nil => intro _; rfl
  | cons c a' ih =>
    intro h
    have hc : c ≠ sep := fun he => h (he ▸ List.mem_cons_self c a')
    have ha' : sep ∉ a' := fun hm => h (List.mem_cons_of_mem c hm)
    rw [splitOnChar_cons_eq sep c a' a' [] (ih ha'), if_neg hc]

/-- splitOnChar peels a separator-free prefix before a separator. -/
theorem splitOnChar_append (sep : Char) :
    ∀ (a b : List Char), sep ∉ a →
      splitOnChar sep (a ++ sep :: b) = a :: splitOnChar sep b := by
  intro a
  induction a with
  | nil =>
    intro b _
    cases h : splitOnChar sep b with
    | nil => exact absurd h (splitOnChar_ne_nil sep b)
    | cons hd tl =>
      rw [List.nil_append, splitOnChar_cons_eq sep sep b hd tl h, if_pos rfl]
  | cons c a' ih =>
    intro b h
    have hc : c ≠ sep := fun he => h (he ▸ List.mem_cons_self c a')
    have ha' : sep ∉ a' := fun hm => h (List.mem_cons_of_mem c hm)
    cases h2 : splitOnChar sep b with
    | nil => exact absurd h2 (splitOnChar_ne_nil sep b)
    | cons hd tl =>
      have hrec : splitOnChar sep (a' ++ sep :: b) = a' :: hd :: tl := by
        rw [ih b ha', h2]
      rw [List.cons_append,
        splitOnChar_cons_eq sep c (a' ++ sep :: b) a' (hd :: tl) hrec,
        if_neg hc]

/-- takeWhile not-equals stops exactly at the first equals sign. -/
theorem takeWhile_key :
    ∀ (k w : List Char), (∀ c ∈ k, (c == '=') = false) →
      ((k ++ '=' :: w).takeWhile fun c => !(c == '=')) = k := by
  intro k
  induction k with
  | nil =>
    intro w _
    simp [List.takeWhile_cons]
  | cons c k' ih =>
    intro w h
    have hc : (c == '=') = false := h c (List.mem_cons_self _ _)
    rw [List.cons_append, List.takeWhile_cons]
    simp only [hc]
    rw [ih w fun x hx => h x (List.mem_cons_of_mem _ hx)]
    simp

/-- dropWhile not-equals leaves the first equals sign and the value. -/
theorem dropWhile_key :
    ∀ (k w : List Char), (∀ c ∈ k, (c == '=') = false) →
      ((k ++ '=' :: w).dropWhile fun c => !(c == '=')) = '=' :: w := by
  intro k
  induction k with
  | nil =>
    intro w _
    simp [List.dropWhile_cons]
  | cons c k' ih =>
    intro w h
    have hc : (c == '=') = false := h c (List.mem_cons_self _ _)
    rw [List.cons_append, List.dropWhile_cons]
    simp only [hc]
    rw [ih w fun x hx => h x (List.mem_cons_of_mem _ hx)]
    simp

/-- A successful association-list lookup means the pair is a member. -/
theorem lookup_mem {β : Type} :
    ∀ (l : List (String × β)) (k : String) (v : β),
      l.lookup k = some v → (k, v) ∈ l := by
  intro l
  induction l with
  | nil => intro k v h; cases h
  | cons p t ih =>
    intro k v h
    obtain ⟨a, b⟩ := p
    rw [List.lookup_cons] at h
    by_cases hak : k == a
    · rw [hak] at h
      have hb : b = v := by injection h
      have hk : k = a := by simpa using hak
      rw [hk, ← hb]
      exact List.mem_cons_self _ _
    · have hak' : (k == a) = false := by simpa using hak
      rw [hak'] at h
      exact List.mem_cons_of_mem _ (ih k v h)

/-- Every parameter value decoded from a search string is free of the
ampersand separator. -/
theorem lookupParam_no_sep (s k v : String)
    (h : lookupParam (parseQueryString s) k = some v) : '&' ∉ v.data := by
  rw [lookupParam] at h
  cases hl : (parseQueryString s).lookup k with
  | none => rw [hl] at h; cases h
  | some vv =>
    rw [hl] at h
    cases vv with
    | none => cases h
    | some v' =>
      have hv : v' = v := by injection h
      subst hv
      have hmem : (k, some v') ∈ parseQueryString s := lookup_mem _ _ _ hl
      rw [parseQueryString] at hmem
      obtain ⟨piece, hpiece, hfn⟩ := List.mem_map.mp hmem
      have hsnd : (match piece.dropWhile (fun c => !(c == '=')) with
          | [] => (none : Option String)
          | _ :: w => some (String.mk w)) = some v' := congrArg Prod.snd hfn
      cases hdp : piece.dropWhile (fun c => !(c == '=')) with
      | nil => rw [hdp] at hsnd; cases hsnd
      | cons c w =>
        rw [hdp] at hsnd
        have hw : String.mk w = v' := by injection hsnd
        intro hamp
        have hwdata : '&' ∈ w := by
          rw [← hw] at hamp
          exact hamp
        have hpiece_amp : '&' ∈ piece :=
          (List.dropWhile_sublist _).subset
            (hdp ▸ List.mem_cons_of_mem c hwdata)
        exact mem_splitOnChar_not_mem '&' s.data piece hpiece hpiece_amp

/-- The fueled digit function agrees with Nat.digits in base ten once the
fuel dominates the number. -/
theorem natDigitsAux_eq :
    ∀ (fuel n : Nat), n ≤ fuel → natDigitsAux fuel n = Nat.digits 10 n := by
  intro fuel
  induction fuel with
  | zero =>
    intro n hn
    interval_cases n
    simp [natDigitsAux]
  | succ fuel ih =>
    intro n hn
    cases n with
    | zero => simp [natDigitsAux]
    | succ m =>
      have hdiv : (m + 1) / 10 ≤ fuel := by
        have h1 : (m + 1) / 10 < m + 1 :=
          Nat.div_lt_self (Nat.succ_pos m) (by norm_num)
        omega
      rw [Nat.digits_def' (by norm_num : (1 : ℕ) < 10) (Nat.succ_pos m)]
      show (m + 1) % 10 :: natDigitsAux fuel ((m + 1) / 10)
          = (m + 1) % 10 :: Nat.digits 10 ((m + 1) / 10)
      rw [ih _ hdiv]

/-- The fueled digit function is Nat.digits in base ten. -/
theorem natDigits_eq (n : Nat) : natDigits n = Nat.digits 10 n :=
  natDigitsAux_eq n n le_rfl

/-- Character facts about decimal digit characters. -/
theorem digitChar_facts (d : Nat) (hd : d < 10) :
    (digitChar d).isDigit = true ∧ (digitChar d).toNat - 48 = d
      ∧ digitChar d ≠ '&' ∧ (digitChar d == '=') = false := by
  interval_cases d <;> exact ⟨by decide, by decide, by decide, by decide⟩

/-- Every character of a rendered numeric value is a decimal digit,
distinct from the two query-string separators. -/
theorem natToQueryValue_chars (n : Nat) :
    ∀ c ∈ (natToQueryValue n).data,
      c.isDigit = true ∧ c ≠ '&' ∧ (c == '=') = false := by
  intro c hc
  rw [natToQueryValue] at hc
  by_cases hn : n = 0
  · rw [if_pos hn] at hc
    have : c = '0' := by simpa using hc
    subst this
    exact ⟨by decide, by decide, by decide⟩
  · rw [if_neg hn] at hc
    have hc' : c ∈ (natDigits n).reverse.map digitChar := hc
    obtain ⟨d, hd, rfl⟩ := List.mem_map.mp hc'
    have hd10 : d < 10 := by
      rw [natDigits_eq] at hd
      exact Nat.digits_lt_base (by norm_num) (List.mem_reverse.mp hd)
    obtain ⟨h1, _, h3, h4⟩ := digitChar_facts d hd10
    exact ⟨h1, h3, h4⟩

/-- Decoding a rendered numeric value recovers the number. -/
theorem natToQueryValue_roundtrip (n : Nat) :
    queryValueToNat? (natToQueryValue n) = some n := by
  by_cases hn : n = 0
  · subst hn
    decide
  · have hdg : (natToQueryValue n).data = (natDigits n).reverse.map digitChar := by
      rw [natToQueryValue, if_neg hn]
    have hdnil : natDigits n ≠ [] := by
      rw [natDigits_eq]
      exact Nat.digits_ne_nil_iff_ne_zero.mpr hn
    have hne : (natToQueryValue n).data ≠ [] := by
      rw [hdg]
      simp [hdnil]
    have hempty : (natToQueryValue n).data.isEmpty = false := by
      cases hdata : (natToQueryValue n).data with
      | nil => exact absurd hdata hne
      | cons c t => rfl
    have hall : (natToQueryValue n).data.all (fun c => c.isDigit) = true := by
      rw [List.all_eq_true]
      intro c hc
      exact (natToQueryValue_chars n c hc).1
    have hcond : (!(natToQueryValue n).data.isEmpty
        && (natToQueryValue n).data.all (fun c => c.isDigit)) = true := by
      rw [hempty, hall]
      rfl
    rw [queryValueToNat?, if_pos hcond]
    congr 1
    rw [hdg, List.map_map]
    have hmc : (natDigits n).reverse.map ((fun c : Char => c.toNat - 48) ∘ digitChar)
        = (natDigits n).reverse.map (fun d => d) := by
      apply List.map_congr_left
      intro d hd
      have hd10 : d < 10 := by
        rw [natDigits_eq] at hd
        exact Nat.digits_lt_base (by norm_num) (List.mem_reverse.mp hd)
      exact (digitChar_facts d hd10).2.1
    rw [hmc, List.map_id', List.reverse_reverse, natDigits_eq,
      Nat.ofDigits_digits]

/-- Unfolding of String.mk's character data. -/
theorem string_data_mk (l : List Char) : (String.mk l).data = l := rfl

/-- C9: re-parsing the encoding of a parsed query-param object yields the
same object (the encode/parse round-trip is idempotent on parser
outputs). -/
theorem queryParams_roundtrip (s : String) :
    getURLQueryParams (encodeQueryParams (getURLQueryParams s))
      = getURLQueryParams s := by
  set p := getURLQueryParams s with hp
  have hsearch : '&' ∉ p.search.data := by
    have he : p.search = (lookupParam (parseQueryString s) "search").getD "" := rfl
    rw [he]
    cases h : lookupParam (parseQueryString s) "search" with
    | none => decide
    | some v =>
      rw [Option.getD_some]
      exact lookupParam_no_sep s "search" v h
  have hindices : '&' ∉ p.indices.data := by
    have he : p.indices = (lookupParam (parseQueryString s) "indices").getD "" := rfl
    rw [he]
    cases h : lookupParam (parseQueryString s) "indices" with
    | none => decide
    | some v =>
      rw [Option.getD_some]
      exact lookupParam_no_sep s "indices" v h
  have hsortField : '&' ∉ p.sortField.data := by
    have he : p.sortField
        = (lookupParam (parseQueryString s) "sortField").getD "name" := rfl
    rw [he]
    cases h : lookupParam (parseQueryString s) "sortField" with
    | none => decide
    | some v =>
      rw [Option.getD_some]
      exact lookupParam_no_sep s "sortField" v h
  have hA1 : '&' ∉ "from=".data ++ (natToQueryValue p.from_).data := by
    intro hmem
    rcases List.mem_append.mp hmem with h | h
    · revert h; decide
    · exact (natToQueryValue_chars _ _ h).2.1 rfl
  have hA2 : '&' ∉ "size=".data ++ (natToQueryValue p.size).data := by
    intro hmem
    rcases List.mem_append.mp hmem with h | h
    · revert h; decide
    · exact (natToQueryValue_chars _ _ h).2.1 rfl
  have hA3 : '&' ∉ "search=".data ++ p.search.data := by
    intro hmem
    rcases List.mem_append.mp hmem with h | h
    · revert h; decide
    · exact hsearch h
  have hA4 : '&' ∉ "indices=".data ++ p.indices.data := by
    intro hmem
    rcases List.mem_append.mp hmem with h | h
    · revert h; decide
    · exact hindices h
  have hA5 : '&' ∉ "sortField=".data ++ p.sortField.data := by
    intro hmem
    rcases List.mem_append.mp hmem with h | h
    · revert h; decide
    · exact hsortField h
  have hA6 : '&' ∉ "sortDirection=".data
      ++ (sortDirectionToString p.sortDirection).data := by
    cases hsd : p.sortDirection <;> decide
  have hdata : (encodeQueryParams p).data
      = ("from=".data ++ (natToQueryValue p.from_).data)
        ++ '&' :: (("size=".data ++ (natToQueryValue p.size).data)
        ++ '&' :: (("search=".data ++ p.search.data)
        ++ '&' :: (("indices=".data ++ p.indices.data)
        ++ '&' :: (("sortField=".data ++ p.sortField.data)
        ++ '&' :: ("sortDirection=".data
            ++ (sortDirectionToString p.sortDirection).data))))) := by
    simp [encodeQueryParams, string_data_mk, List.append_assoc]
  have hsplit : splitOnChar '&' (encodeQueryParams p).data
      = [ "from=".data ++ (natToQueryValue p.from_).data,
          "size=".data ++ (natToQueryValue p.size).data,
          "search=".data ++ p.search.data,
          "indices=".data ++ p.indices.data,
          "sortField=".data ++ p.sortField.data,
          "sortDirection=".data ++ (sortDirectionToString p.sortDirection).data ] := by
    rw [hdata, splitOnChar_append _ _ _ hA1, splitOnChar_append _ _ _ hA2,
      splitOnChar_append _ _ _ hA3, splitOnChar_append _ _ _ hA4,
      splitOnChar_append _ _ _ hA5, splitOnChar_no_sep _ _ hA6]
  have e1 : "from=".data ++ (natToQueryValue p.from_).data
      = "from".data ++ '=' :: (natToQueryValue p.from_).data := by
    rw [show "from=".data = "from".data ++ ['='] by decide,
      List.append_assoc, List.singleton_append]
  have e2 : "size=".data ++ (natToQueryValue p.size).data
      = "size".data ++ '=' :: (natToQueryValue p.size).data := by
    rw [show "size=".data = "size".data ++ ['='] by decide,
      List.append_assoc, List.singleton_append]
  have e3 : "search=".data ++ p.search.data
      = "search".data ++ '=' :: p.search.data := by
    rw [show "search=".data = "search".data ++ ['='] by decide,
      List.append_assoc, List.singleton_append]
  have e4 : "indices=".data ++ p.indices.data
      = "indices".data ++ '=' :: p.indices.data := by
    rw [show "indices=".data = "indices".data ++ ['='] by decide,
      List.append_assoc, List.singleton_append]
  have e5 : "sortField=".data ++ p.sortField.data
      = "sortField".data ++ '=' :: p.sortField.data := by
    rw [show "sortField=".data = "sortField".data ++ ['='] by decide,
      List.append_assoc, List.singleton_append]
  have e6 : "sortDirection=".data ++ (sortDirectionToString p.sortDirection).data
      = "sortDirection".data ++ '=' :: (sortDirectionToString p.sortDirection).data := by
    rw [show "sortDirection=".data = "sortDirection".data ++ ['='] by decide,
      List.append_assoc, List.singleton_append]
  have hparse : parseQueryString (encodeQueryParams p)
      = [("from", some (natToQueryValue p.from_)),
         ("size", some (natToQueryValue p.size)),
         ("search", some p.search),
         ("indices", some p.indices),
         ("sortField", some p.sortField),
         ("sortDirection", some (sortDirectionToString p.sortDirection))] := by
    rw [parseQueryString, hsplit]
    simp only [List.map_cons, List.map_nil]
    rw [e1, e2, e3, e4, e5, e6,
      takeWhile_key _ _ (by decide), dropWhile_key _ _ (by decide),
      takeWhile_key _ _ (by decide), dropWhile_key _ _ (by decide),
      takeWhile_key _ _ (by decide), dropWhile_key _ _ (by decide),
      takeWhile_key _ _ (by decide), dropWhile_key _ _ (by decide),
      takeWhile_key _ _ (by decide), dropWhile_key _ _ (by decide),
      takeWhile_key _ _ (by decide), dropWhile_key _ _ (by decide)]
  have l1 : lookupParam (parseQueryString (encodeQueryParams p)) "from"
      = some (natToQueryValue p.from_) := by
    rw [hparse]; rfl
  have l2 : lookupParam (parseQueryString (encodeQueryParams p)) "size"
      = some (natToQueryValue p.size) := by
    rw [hparse]; rfl
  have l3 : lookupParam (parseQueryString (encodeQueryParams p)) "search"
      = some p.search := by
    rw [hparse]; rfl
  have l4 : lookupParam (parseQueryString (encodeQueryParams p)) "indices"
      = some p.indices := by
    rw [hparse]; rfl
  have l5 : lookupParam (parseQueryString (encodeQueryParams p)) "sortField"
      = some p.sortField := by
    rw [hparse]; rfl
  have l6 : lookupParam (parseQueryString (encodeQueryParams p)) "sortDirection"
      = some (sortDirectionToString p.sortDirection) := by
    rw [hparse]; rfl
  have hsd : parseSortDirection (some (sortDirectionToString p.sortDirection))
      = p.sortDirection := by
    cases p.sortDirection <;> decide
  simp only [getURLQueryParams, l1, l2, l3, l4, l5, l6,
    natToQueryValue_roundtrip, Option.getD_some, hsd]

/-- Extensionality for plot grids. -/
theorem PlotData_ext (a b : PlotData) (hx : a.x = b.x) (hy : a.y = b.y)
    (hz : a.z = b.z) (ht : a.text = b.text) (ho : a.opacity = b.opacity)
    (hc : a.cellTimeInterval = b.cellTimeInterval) : a = b := by
  cases a
  cases b
  simp only at hx hy hz ht ho hc
  rw [hx, hy, hz, ht, ho, hc]

/-- The descending-rank ordering is total. -/
instance (sortType : AnomalyHeatmapSortType) :
    IsTotal (String × List (Option ℚ) × List Nat) (heatmapRankRel sortType) :=
  ⟨fun a b => le_total (rowRank sortType b) (rowRank sortType a)⟩

/-- The descending-rank ordering is transitive. -/
instance (sortType : AnomalyHeatmapSortType) :
    IsTrans (String × List (Option ℚ) × List Nat) (heatmapRankRel sortType) :=
  ⟨fun _ _ _ hab hbc => le_trans hbc hab⟩

/-- Zipping the three projections of triples recovers the list. -/
theorem zip_proj {α β γ : Type} (l : List (α × β × γ)) :
    (l.map fun r => r.1).zip
      ((l.map fun r => r.2.1).zip (l.map fun r => r.2.2)) = l := by
  induction l with
  | nil => rfl
  | cons a t ih => simp [ih]

/-- The rows of a sorted grid are the sorted, truncated rows of the
input. -/
theorem heatmapRows_sort (g : PlotData) (sortType : AnomalyHeatmapSortType)
    (topNum : Nat) :
    heatmapRows (sortHeatmapPlotData g sortType topNum)
      = ((heatmapRows g).insertionSort (heatmapRankRel sortType)).take topNum := by
  show ((((heatmapRows g).insertionSort (heatmapRankRel sortType)).take topNum).map fun r => r.1).zip
      (((((heatmapRows g).insertionSort (heatmapRankRel sortType)).take topNum).map fun r => r.2.1).zip
        ((((heatmapRows g).insertionSort (heatmapRankRel sortType)).take topNum).map fun r => r.2.2))
    = ((heatmapRows g).insertionSort (heatmapRankRel sortType)).take topNum
  exact zip_proj _

/-- C5: re-sorting a heatmap grid by the same sort type and top-N count is
idempotent, and sorting changes only the Y-axis entity ordering and the
retained top-N slice — the X axis, the opacity and the cell time interval
are untouched, and every retained row (its Y label together with its z and
text rows) is a row of the input grid with unchanged cell values. -/
theorem sortHeatmapPlotData_idempotent (g : PlotData)
    (sortType : AnomalyHeatmapSortType) (topNum : Nat) :
    sortHeatmapPlotData (sortHeatmapPlotData g sortType topNum) sortType topNum
        = sortHeatmapPlotData g sortType topNum
      ∧ (sortHeatmapPlotData g sortType topNum).x = g.x
      ∧ (sortHeatmapPlotData g sortType topNum).opacity = g.opacity
      ∧ (sortHeatmapPlotData g sortType topNum).cellTimeInterval
          = g.cellTimeInterval
      ∧ ∀ row ∈ heatmapRows (sortHeatmapPlotData g sortType topNum),
          row ∈ heatmapRows g := by
  have hsorted :
      (((heatmapRows g).insertionSort (heatmapRankRel sortType)).take topNum).Sorted
        (heatmapRankRel sortType) :=
    List.Pairwise.sublist (List.take_sublist _ _)
      (List.sorted_insertionSort (heatmapRankRel sortType) (heatmapRows g))
  have key :
      ((heatmapRows (sortHeatmapPlotData g sortType topNum)).insertionSort
          (heatmapRankRel sortType)).take topNum
        = ((heatmapRows g).insertionSort (heatmapRankRel sortType)).take topNum := by
    rw [heatmapRows_sort, List.Sorted.insertionSort_eq hsorted]
    exact List.take_of_length_le
      (le_trans (Nat.le_of_eq (List.length_take _ _)) (Nat.min_le_left _ _))
  refine ⟨?_, rfl, rfl, rfl, ?_⟩
  · refine PlotData_ext _ _ rfl ?_ ?_ ?_ rfl rfl
    · show (((heatmapRows (sortHeatmapPlotData g sortType topNum)).insertionSort
          (heatmapRankRel sortType)).take topNum).map (fun r => r.1)
        = (((heatmapRows g).insertionSort (heatmapRankRel sortType)).take topNum).map
            (fun r => r.1)
      rw [key]
    · show (((heatmapRows (sortHeatmapPlotData g sortType topNum)).insertionSort
          (heatmapRankRel sortType)).take topNum).map (fun r => r.2.1)
        = (((heatmapRows g).insertionSort (heatmapRankRel sortType)).take topNum).map
            (fun r => r.2.1)
      rw [key]
    · show (((heatmapRows (sortHeatmapPlotData g sortType topNum)).insertionSort
          (heatmapRankRel sortType)).take topNum).map (fun r => r.2.2)
        = (((heatmapRows g).insertionSort (heatmapRankRel sortType)).take topNum).map
            (fun r => r.2.2)
      rw [key]
  · intro row hrow
    rw [heatmapRows_sort] at hrow
    have h1 : row ∈ (heatmapRows g).insertionSort (heatmapRankRel sortType) :=
      (List.take_sublist _ _).subset hrow
    exact (List.mem_insertionSort _).mp h1

/-- Reading a mapped range at an in-bounds index gives the function
value. -/
theorem getD_map_range {α : Type} (n : Nat) (f : Nat → α) (i : Nat) (d : α)
    (h : i < n) : ((List.range n).map f).getD i d = f i := by
  rw [List.getD_eq_getElem?_getD, List.getElem?_map, List.getElem?_range h]
  rfl

/-- The overlay grid built for a selected cell is non-null exactly at that
cell (within the original grid's bounds). -/
theorem overlay_cell (g : PlotData) (selX selY i j : Nat)
    (hi : i < g.z.length) (hj : j < (g.z.getD i []).length) :
    ((((getSelectedHeatmapCellPlotData g selX selY).getD 0 emptyPlotData).z.getD
        i []).getD j none ≠ none)
      ↔ (i = selY ∧ j = selX) := by
  have h1 : ((getSelectedHeatmapCellPlotData g selX selY).getD 0 emptyPlotData).z
      = (List.range g.z.length).map fun i =>
          (List.range ((g.z.getD i []).length)).map fun j =>
            if i = selY ∧ j = selX then
              some (((g.z.getD i []).getD j none).getD 0)
            else none := rfl
  rw [h1, getD_map_range _ _ _ _ hi, getD_map_range _ _ _ _ hj]
  by_cases hc : i = selY ∧ j = selX
  · rw [if_pos hc]
    simp [hc]
  · rw [if_neg hc]
    simp [hc]

/-- Click behavior from the no-selection state: zero-count clicks reset,
any other click selects the clicked cell. -/
theorem handleClick_noSel (g : PlotData) (ev : ClickEvent) :
    handleHeatmapClick [g] ev
      = if ev.text = 0 then ([updateHeatmapPlotData g 1], none)
        else (heatmapStateWithSelection g ev.pointXIndex ev.pointYIndex,
          some ⟨ev.customdata, ev.pointXIndex, ev.pointYIndex⟩) := by
  by_cases h0 : ev.text = 0
  · rw [if_pos h0]
    simp only [handleHeatmapClick]
    rw [if_pos (Or.inl h0)]
    rfl
  · rw [if_neg h0]
    simp only [handleHeatmapClick]
    rw [if_neg ?hc]
    case hc =>
      rintro (h | ⟨h1, _⟩)
      · exact h0 h
      · simp at h1
    rfl

/-- Click behavior from a selected-cell state: zero-count clicks and
re-clicks on the selected cell reset, any other click replaces the
selection. -/
theorem handleClick_withSel (g : PlotData) (selX selY : Nat) (ev : ClickEvent)
    (hy : ev.pointYIndex < g.z.length)
    (hx : ev.pointXIndex < (g.z.getD ev.pointYIndex []).length) :
    handleHeatmapClick (heatmapStateWithSelection g selX selY) ev
      = if ev.text = 0 ∨ (ev.pointYIndex = selY ∧ ev.pointXIndex = selX)
        then ([updateHeatmapPlotData g 1], none)
        else (heatmapStateWithSelection g ev.pointXIndex ev.pointYIndex,
          some ⟨ev.customdata, ev.pointXIndex, ev.pointYIndex⟩) := by
  have hov : ((((heatmapStateWithSelection g selX selY).getD 1
        emptyPlotData).z.getD ev.pointYIndex []).getD ev.pointXIndex none ≠ none)
      ↔ (ev.pointYIndex = selY ∧ ev.pointXIndex = selX) := by
    have he : (heatmapStateWithSelection g selX selY).getD 1 emptyPlotData
        = (getSelectedHeatmapCellPlotData g selX selY).getD 0 emptyPlotData := rfl
    rw [he]
    exact overlay_cell g selX selY _ _ hy hx
  by_cases hcond : ev.text = 0 ∨ (ev.pointYIndex = selY ∧ ev.pointXIndex = selX)
  · rw [if_pos hcond]
    simp only [handleHeatmapClick]
    rw [if_pos ?hc]
    case hc =>
      rcases hcond with h | h
      · exact Or.inl h
      · refine Or.inr ⟨?_, hov.mpr h⟩
        show 1 < (heatmapStateWithSelection g selX selY).length
        rw [heatmapStateWithSelection, getSelectedHeatmapCellPlotData]
        simp
    rfl
  · rw [if_neg hcond]
    simp only [handleHeatmapClick]
    rw [if_neg ?hc]
    case hc =>
      rintro (h | ⟨_, h2⟩)
      · exact hcond (Or.inl h)
      · exact hcond (Or.inr (hov.mp h2))
    rfl

/-- C4: the click handler reports an undefined selection exactly when the
clicked cell has zero anomaly occurrences or is already the selected cell
(from the no-selection state: exactly when the count is zero); whenever it
reports undefined it restores the single full-opacity grid; every other
click produces the dimmed grid plus a single-cell overlay selection, and
that overlay is non-null exactly at the clicked cell. -/
theorem handleHeatmapClick_selection (g : PlotData) (selX selY : Nat)
    (ev : ClickEvent) (hy : ev.pointYIndex < g.z.length)
    (hx : ev.pointXIndex < (g.z.getD ev.pointYIndex []).length) :
    ((handleHeatmapClick [g] ev).2 = none ↔ ev.text = 0)
      ∧ ((handleHeatmapClick (heatmapStateWithSelection g selX selY) ev).2 = none
          ↔ (ev.text = 0 ∨ (ev.pointYIndex = selY ∧ ev.pointXIndex = selX)))
      ∧ ((handleHeatmapClick [g] ev).2 = none →
          (handleHeatmapClick [g] ev).1 = [updateHeatmapPlotData g 1])
      ∧ ((handleHeatmapClick (heatmapStateWithSelection g selX selY) ev).2 = none →
          (handleHeatmapClick (heatmapStateWithSelection g selX selY) ev).1
            = [updateHeatmapPlotData g 1])
      ∧ (ev.text ≠ 0 →
          handleHeatmapClick [g] ev
            = (heatmapStateWithSelection g ev.pointXIndex ev.pointYIndex,
                some ⟨ev.customdata, ev.pointXIndex, ev.pointYIndex⟩))
      ∧ (ev.text ≠ 0 → ¬ (ev.pointYIndex = selY ∧ ev.pointXIndex = selX) →
          handleHeatmapClick (heatmapStateWithSelection g selX selY) ev
            = (heatmapStateWithSelection g ev.pointXIndex ev.pointYIndex,
                some ⟨ev.customdata, ev.pointXIndex, ev.pointYIndex⟩))
      ∧ (∀ i j, i < g.z.length → j < (g.z.getD i []).length →
          (((((getSelectedHeatmapCellPlotData g ev.pointXIndex
                ev.pointYIndex).getD 0 emptyPlotData).z.getD i []).getD j none
              ≠ none)
            ↔ (i = ev.pointYIndex ∧ j = ev.pointXIndex))) := by
  refine ⟨?_, ?_, ?_, ?_, ?_, ?_, ?_⟩
  · rw [handleClick_noSel]
    by_cases h0 : ev.text = 0
    · rw [if_pos h0]
      exact iff_of_true rfl h0
    · rw [if_neg h0]
      exact iff_of_false (by simp) h0
  · rw [handleClick_withSel g selX selY ev hy hx]
    by_cases hcond : ev.text = 0 ∨ (ev.pointYIndex = selY ∧ ev.pointXIndex = selX)
    · rw [if_pos hcond]
      exact iff_of_true rfl hcond
    · rw [if_neg hcond]
      exact iff_of_false (by simp) hcond
  · rw [handleClick_noSel]
    by_cases h0 : ev.text = 0
    · rw [if_pos h0]
      intro _
      rfl
    · rw [if_neg h0]
      intro h
      simp at h
  · rw [handleClick_withSel g selX selY ev hy hx]
    by_cases hcond : ev.text = 0 ∨ (ev.pointYIndex = selY ∧ ev.pointXIndex = selX)
    · rw [if_pos hcond]
      intro _
      rfl
    · rw [if_neg hcond]
      intro h
      simp at h
  · intro h0
    rw [handleClick_noSel, if_neg h0]
  · intro h0 hns
    rw [handleClick_withSel g selX selY ev hy hx, if_neg ?hc]
    case hc =>
      rintro (h | h)
      · exact h0 h
      · exact hns h
  · intro i j hi hj
    exact overlay_cell g ev.pointXIndex ev.pointYIndex i j hi hj

/-- C4 witness: on a concrete one-cell grid, clicking the cell with a
nonzero count from the no-selection state reports a selection. -/
theorem handleHeatmapClick_selection_witness :
    (handleHeatmapClick [witnessPlotGrid] witnessClickEvent).2 = none
      ↔ witnessClickEvent.text = 0 :=
  (handleHeatmapClick_selection witnessPlotGrid 0 0 witnessClickEvent
    (by decide) (by decide)).1

/-- C5 witness: on a concrete one-row grid, a retained row of the sorted
grid is a row of the input grid. -/
theorem sortHeatmapPlotData_idempotent_witness :
    ("e0", ([none] : List (Option ℚ)), [3]) ∈ heatmapRows witnessSortGrid :=
  (sortHeatmapPlotData_idempotent witnessSortGrid
      AnomalyHeatmapSortType.SEVERITY 10).2.2.2.2
    ("e0", [none], [3]) (by decide)
